import Mathlib

/-!
Verification of the InventorySys stock ledger and derived-status model.

The definitions below are a shallow embedding of the repository's core:

* the `status` generated column of `products`
  (supabase/migrations/20260219054753_create_inventory_tables.sql, lines 89-95);
* the stock-movement handler `StockModal.handleSubmit`
  (the `recordMovement` workflow of the spec);
* the product form handler `ProductModal.handleSubmit` (insert/update payload);
* the category delete handler `Categories.handleDelete` together with the
  `ON DELETE SET NULL` foreign key on `products.category_id`;
* the row-level-security policy predicates of the migration.

SQL `integer` columns and JavaScript numbers are modelled as `Int`; row
identifiers (uuids) as `Nat`.
-/

/-- The three values of the `products.status` generated column. -/
inductive Status where
  | out_of_stock
  | low_stock
  | in_stock
deriving DecidableEq, Repr

/-- The `status` generated column of `products`
(migration lines 89-95):
`CASE WHEN quantity = 0 THEN 'out_of_stock' WHEN quantity < 5 THEN 'low_stock' ELSE 'in_stock' END`. -/
def classify (quantity : Int) : Status :=
  if quantity = 0 then Status.out_of_stock
  else if quantity < 5 then Status.low_stock
  else Status.in_stock

/-- `profiles.role`: `'admin'` or `'staff'` (migration line 66). -/
inductive Role where
  | admin
  | staff
deriving DecidableEq, Repr

/-- A row of the `profiles` table (fields the policies read). -/
structure Profile where
  id : Nat
  name : String
  role : Role
  is_active : Bool
deriving DecidableEq, Repr

/-- A row of the `categories` table. -/
structure Category where
  id : Nat
  name : String
  description : String
deriving DecidableEq, Repr

/-- The payload built by `ProductModal.handleSubmit` (part_004 lines 43-50):
name, sku, category_id, price, quantity, description.  There is no status
field: the form cannot set `status`. -/
structure ProductPayload where
  name : String
  sku : String
  category_id : Option Nat
  price : Int
  quantity : Int
  description : String
deriving DecidableEq, Repr

/-- A stored row of the `products` table.  `status` is a stored generated
column: every write path below recomputes it from `quantity` via `classify`. -/
structure ProductRow where
  id : Nat
  name : String
  sku : String
  category_id : Option Nat
  price : Int
  quantity : Int
  status : Status
  description : String
deriving DecidableEq, Repr

/-- Materialise an insert/update payload as a stored row: the storage layer
computes `status` from `quantity` (`GENERATED ALWAYS ... STORED`). -/
def storedRow (id : Nat) (pl : ProductPayload) : ProductRow :=
  { id := id, name := pl.name, sku := pl.sku, category_id := pl.category_id,
    price := pl.price, quantity := pl.quantity,
    status := classify pl.quantity, description := pl.description }

/-- Write a new quantity onto a product row; the generated column recomputes
`status` from the new quantity. -/
def setQuantity (p : ProductRow) (q : Int) : ProductRow :=
  { p with quantity := q, status := classify q }

/-- `stock_transactions.type`: `'IN'` or `'OUT'` (migration line 107). -/
inductive Direction where
  | IN
  | OUT
deriving DecidableEq, Repr

/-- A row of the `stock_transactions` table, as inserted by
`StockModal.handleSubmit` (part_003 lines 39-47). -/
structure StockTransaction where
  product_id : Nat
  user_id : Nat
  quantity : Int
  type : Direction
  notes : String
deriving DecidableEq, Repr

/-- The errors `StockModal.handleSubmit` throws before any write
(part_003 lines 31-37). -/
inductive MovementError where
  | ProductNotFound
  | InsufficientStock
deriving DecidableEq, Repr

/-- The relational store: the four tables the core workflow touches. -/
structure DB where
  profiles : List Profile
  categories : List Category
  products : List ProductRow
  transactions : List StockTransaction
deriving DecidableEq, Repr

/-- The empty initial store. -/
def initDB : DB :=
  { profiles := [], categories := [], products := [], transactions := [] }

/-- The stock-movement workflow, `StockModal.handleSubmit` (part_003 lines
27-59): find the product; if absent fail with `ProductNotFound`; if the
direction is OUT and `product.quantity < quantity` fail with
`InsufficientStock` before any write; otherwise insert the ledger row and
update the product's quantity to `current + quantity` (IN) or
`current - quantity` (OUT).  The pair returned is the store after the
operation and the error, if any. -/
def recordMovement (db : DB) (productId userId : Nat) (direction : Direction)
    (quantity : Int) (notes : String) : DB × Option MovementError :=
  match db.products.find? (fun p => p.id == productId) with
  | none => (db, some MovementError.ProductNotFound)
  | some product =>
    if direction = Direction.OUT ∧ product.quantity < quantity then
      (db, some MovementError.InsufficientStock)
    else
      let tx : StockTransaction :=
        { product_id := productId, user_id := userId, quantity := quantity,
          type := direction, notes := notes }
      let newQuantity :=
        if direction = Direction.IN then product.quantity + quantity
        else product.quantity - quantity
      ({ db with
          transactions := db.transactions ++ [tx],
          products := db.products.map (fun p =>
            if p.id == productId then setQuantity p newQuantity else p) },
        none)

/-- `ProductModal.handleSubmit`, insert branch (part_004 line 59). -/
def createProduct (db : DB) (id : Nat) (pl : ProductPayload) : DB :=
  { db with products := db.products ++ [storedRow id pl] }

/-- `ProductModal.handleSubmit`, update branch (part_004 lines 52-57):
update the payload's columns on the row with the given id; `status` is
regenerated from the written quantity. -/
def updateProduct (db : DB) (id : Nat) (pl : ProductPayload) : DB :=
  { db with products := db.products.map (fun p =>
      if p.id == id then storedRow p.id pl else p) }

/-- `Products.handleDelete` together with the foreign key
`stock_transactions.product_id REFERENCES products(id) ON DELETE CASCADE`
(migration line 104): deleting a product also deletes that product's ledger
rows; the referential action is performed by the storage engine and is not
subject to the row-level-security policies. -/
def deleteProduct (db : DB) (id : Nat) : DB :=
  { db with
      products := db.products.filter (fun p => p.id != id),
      transactions := db.transactions.filter (fun t => t.product_id != id) }

/-- `Categories.handleDelete` (part_005 lines 33-44) together with the
foreign key `products.category_id REFERENCES categories(id) ON DELETE SET
NULL` (migration line 86): the category row is removed and every product
referencing it has its reference set to null; the products themselves are
kept. -/
def deleteCategory (db : DB) (cid : Nat) : DB :=
  { db with
      categories := db.categories.filter (fun c => c.id != cid),
      products := db.products.map (fun p =>
        if p.category_id == some cid then { p with category_id := none } else p) }

/-- CategoryModal insert: add a category row. -/
def createCategory (db : DB) (id : Nat) (name description : String) : DB :=
  { db with categories := db.categories ++ [⟨id, name, description⟩] }

/-- CategoryModal update: edit a category row's name/description. -/
def updateCategory (db : DB) (id : Nat) (name description : String) : DB :=
  { db with categories := db.categories.map (fun c =>
      if c.id == id then ⟨c.id, name, description⟩ else c) }

/-- `Users` page: update a profile's role and active flag. -/
def updateProfile (db : DB) (id : Nat) (role : Role) (active : Bool) : DB :=
  { db with profiles := db.profiles.map (fun pr =>
      if pr.id == id then { pr with role := role, is_active := active } else pr) }

/-- The mutating operations the application issues against the store.  None
of them carries a `status` value: status is only ever derived from quantity
by the storage layer. -/
inductive Op where
  | createProduct (id : Nat) (pl : ProductPayload)
  | updateProduct (id : Nat) (pl : ProductPayload)
  | deleteProduct (id : Nat)
  | createCategory (id : Nat) (name description : String)
  | updateCategory (id : Nat) (name description : String)
  | deleteCategory (id : Nat)
  | updateProfile (id : Nat) (role : Role) (active : Bool)
  | recordMove (productId userId : Nat) (dir : Direction) (q : Int) (notes : String)

/-- Apply one operation to the store (a failed `recordMove` leaves the store
unchanged). -/
def applyOp (db : DB) : Op → DB
  | Op.createProduct id pl => createProduct db id pl
  | Op.updateProduct id pl => updateProduct db id pl
  | Op.deleteProduct id => deleteProduct db id
  | Op.createCategory id n d => createCategory db id n d
  | Op.updateCategory id n d => updateCategory db id n d
  | Op.deleteCategory id => deleteCategory db id
  | Op.updateProfile id r a => updateProfile db id r a
  | Op.recordMove pid uid dir q notes => (recordMovement db pid uid dir q notes).1

/-- A store reachable from the empty store by a sequence of operations. -/
def runOps (ops : List Op) : DB :=
  ops.foldl applyOp initDB

/-- Every product row's stored status is the classification of its quantity. -/
def statusOk (db : DB) : Prop :=
  ∀ p ∈ db.products, p.status = classify p.quantity

/-- The caller identity the row-level-security policies see:
`auth.uid()` and the `profiles` table they consult. -/
structure PolicyCtx where
  profiles : List Profile
  uid : Nat
deriving Repr

/-- The `EXISTS (SELECT 1 FROM profiles WHERE profiles.id = auth.uid() AND
profiles.is_active = true)` predicate shared by the product-insert,
product-update and transaction-insert policies. -/
def isActiveUser (ctx : PolicyCtx) : Bool :=
  ctx.profiles.any (fun pr => pr.id == ctx.uid && pr.is_active)

/-- Policy "Staff and admins can insert products" (migration lines 241-250):
the insert is permitted exactly when the caller has an active profile. -/
def productsCanInsert (ctx : PolicyCtx) : Bool :=
  isActiveUser ctx

/-- Policy "Active staff can insert stock transactions"
(migration lines 280-289). -/
def stockTxCanInsert (ctx : PolicyCtx) : Bool :=
  isActiveUser ctx

/-- Row-level security is enabled on `stock_transactions` (migration line
160) and the migration declares no UPDATE policy for it, so updates are
denied for every caller. -/
def stockTxCanUpdate (_ctx : PolicyCtx) : Bool :=
  false

/-- Row-level security is enabled on `stock_transactions` and the migration
declares no DELETE policy for it, so deletes are denied for every caller. -/
def stockTxCanDelete (_ctx : PolicyCtx) : Bool :=
  false

/-! ### Sample rows used by the witnesses -/

/-- A concrete product row with three units in stock. -/
def sampleProduct : ProductRow :=
  { id := 1, name := "Laptop", sku := "LP-1", category_id := some 1,
    price := 100, quantity := 3, status := classify 3, description := "" }

/-- A concrete product row with zero units in stock. -/
def zeroProduct : ProductRow :=
  { id := 2, name := "Desk", sku := "DK-2", category_id := none,
    price := 50, quantity := 0, status := classify 0, description := "" }

/-- A concrete store holding `sampleProduct` and its category. -/
def sampleDB : DB :=
  { profiles := [], categories := [⟨1, "Electronics", "devices"⟩],
    products := [sampleProduct], transactions := [] }

/-- A concrete store holding only the zero-quantity product. -/
def zeroDB : DB :=
  { profiles := [], categories := [], products := [zeroProduct], transactions := [] }

/-- A concrete ledger row for `sampleProduct`. -/
def sampleTx : StockTransaction :=
  { product_id := 1, user_id := 7, quantity := 2, type := Direction.IN,
    notes := "" }

/-- A concrete store holding `sampleProduct` and one ledger row for it. -/
def txDB : DB :=
  { profiles := [], categories := [], products := [sampleProduct],
    transactions := [sampleTx] }

/-- An inactive staff profile. -/
def staffInactive : Profile := ⟨5, "Sam", Role.staff, false⟩

/-- An active staff profile. -/
def staffActive : Profile := ⟨6, "Alex", Role.staff, true⟩

/-! ### Helper lemmas -/

/-- `find?` by id commutes with an id-preserving update mapped over the rows
that match that id. -/
theorem find_map_update (l : List ProductRow) (pid : Nat)
    (g : ProductRow → ProductRow) (hid : ∀ p, (g p).id = p.id) (p : ProductRow)
    (hfind : l.find? (fun x => x.id == pid) = some p) :
    (l.map (fun x => if x.id == pid then g x else x)).find? (fun x => x.id == pid)
      = some (g p) := by
  induction l with
  | nil => simp at hfind
  | cons a l ih =>
    by_cases ha : (a.id == pid) = true
    · rw [List.find?_cons_of_pos (p := fun x : ProductRow => x.id == pid) _ ha] at hfind
      injection hfind with h1
      subst h1
      have hga : ((g a).id == pid) = true := by
        rw [beq_iff_eq] at ha ⊢
        rw [hid]
        exact ha
      simp only [List.map_cons, if_pos ha]
      rw [List.find?_cons_of_pos (p := fun x : ProductRow => x.id == pid) _ hga]
    · rw [List.find?_cons_of_neg (p := fun x : ProductRow => x.id == pid) _ ha] at hfind
      simp only [List.map_cons, if_neg ha]
      rw [List.find?_cons_of_neg (p := fun x : ProductRow => x.id == pid) _ ha]
      exact ih hfind

/-! ### Claims -/

/-- C3: the status classifier is a pure total function with
`classify 0 = out_of_stock`, `classify q = low_stock` for `1 ≤ q ≤ 4`, and
`classify q = in_stock` for `q ≥ 5`. -/
theorem classify_thresholds :
    classify 0 = Status.out_of_stock ∧
    (∀ q : Int, 1 ≤ q → q ≤ 4 → classify q = Status.low_stock) ∧
    (∀ q : Int, 5 ≤ q → classify q = Status.in_stock) := by
  refine ⟨rfl, ?_, ?_⟩
  · intro q h1 h4
    unfold classify
    rw [if_neg (by omega), if_pos (by omega)]
  · intro q h5
    unfold classify
    rw [if_neg (by omega), if_neg (by omega)]

/-- Witness for C3 at quantities 0, 3 and 7. -/
theorem classify_thresholds_witness :
    classify 0 = Status.out_of_stock ∧ classify 3 = Status.low_stock ∧
    classify 7 = Status.in_stock :=
  ⟨classify_thresholds.1,
   classify_thresholds.2.1 3 (by decide) (by decide),
   classify_thresholds.2.2 7 (by decide)⟩

/-- C1: an OUT movement whose requested quantity exceeds the quantity of the
product used for the check fails with `InsufficientStock` and performs no
writes: the store (products and ledger alike) is returned unchanged. -/
theorem recordMovement_insufficient (db : DB) (pid uid : Nat) (q : Int)
    (notes : String) (p : ProductRow)
    (hfind : db.products.find? (fun x => x.id == pid) = some p)
    (hlt : p.quantity < q) :
    recordMovement db pid uid Direction.OUT q notes
      = (db, some MovementError.InsufficientStock) := by
  simp only [recordMovement, hfind]
  rw [if_pos ⟨trivial, hlt⟩]

/-- Witness for C1: removing 5 units from a stock of 3. -/
theorem recordMovement_insufficient_witness :
    recordMovement sampleDB 1 7 Direction.OUT 5 ""
      = (sampleDB, some MovementError.InsufficientStock) :=
  recordMovement_insufficient sampleDB 1 7 5 "" sampleProduct rfl (by decide)

/-- C2: the OUT sufficiency precondition is checked against the product
quantity stored in the state the operation reads at request time: the
movement fails with `InsufficientStock` exactly when that stored quantity is
below the requested quantity. -/
theorem recordMovement_out_checks_read_quantity (db : DB) (pid uid : Nat)
    (q : Int) (notes : String) (p : ProductRow)
    (hfind : db.products.find? (fun x => x.id == pid) = some p) :
    ((recordMovement db pid uid Direction.OUT q notes).2
        = some MovementError.InsufficientStock) ↔ p.quantity < q := by
  simp only [recordMovement, hfind]
  by_cases h : p.quantity < q
  · rw [if_pos ⟨trivial, h⟩]
    simpa using h
  · rw [if_neg (fun hc => h hc.2)]
    simpa using h

/-- Witness for C2 on the concrete store. -/
theorem recordMovement_out_checks_read_quantity_witness :
    ((recordMovement sampleDB 1 7 Direction.OUT 5 "").2
        = some MovementError.InsufficientStock) ↔ sampleProduct.quantity < 5 :=
  recordMovement_out_checks_read_quantity sampleDB 1 7 5 "" sampleProduct rfl

/-- C5: when the preconditions pass, the persisted new quantity is
`current + quantity` for IN and `current - quantity` for OUT, where
`current` is the quantity the operation read, and exactly that value is
written onto the product row. -/
theorem recordMovement_writes_new_quantity (db : DB) (pid uid : Nat)
    (dir : Direction) (q : Int) (notes : String) (p : ProductRow)
    (hfind : db.products.find? (fun x => x.id == pid) = some p)
    (hok : ¬(dir = Direction.OUT ∧ p.quantity < q)) :
    (recordMovement db pid uid dir q notes).2 = none ∧
    (recordMovement db pid uid dir q notes).1.products.find? (fun x => x.id == pid)
      = some (setQuantity p
          (if dir = Direction.IN then p.quantity + q else p.quantity - q)) := by
  simp only [recordMovement, hfind]
  rw [if_neg hok]
  refine ⟨rfl, ?_⟩
  exact find_map_update db.products pid
    (fun x => setQuantity x
      (if dir = Direction.IN then p.quantity + q else p.quantity - q))
    (fun x => rfl) p hfind

/-- Witness for C5: adding 2 units to a stock of 3. -/
theorem recordMovement_writes_new_quantity_witness :
    (recordMovement sampleDB 1 7 Direction.IN 2 "").2 = none ∧
    (recordMovement sampleDB 1 7 Direction.IN 2 "").1.products.find?
        (fun x => x.id == 1)
      = some (setQuantity sampleProduct
          (if Direction.IN = Direction.IN then sampleProduct.quantity + 2
           else sampleProduct.quantity - 2)) :=
  recordMovement_writes_new_quantity sampleDB 1 7 Direction.IN 2 "" sampleProduct
    rfl (by decide)

/-- C10: the handler has no positivity check on the parsed quantity: an OUT
movement with a negative quantity passes the sufficiency comparison
(`product.quantity < quantity` is false for a non-negative stock), appends a
ledger row, and writes `current - quantity`, which exceeds `current`. -/
theorem recordMovement_no_positivity_check (db : DB) (pid uid : Nat) (q : Int)
    (notes : String) (p : ProductRow)
    (hfind : db.products.find? (fun x => x.id == pid) = some p)
    (hq : q < 0) (hp : 0 ≤ p.quantity) :
    (recordMovement db pid uid Direction.OUT q notes).2 = none ∧
    (recordMovement db pid uid Direction.OUT q notes).1.transactions
      = db.transactions ++ [{ product_id := pid, user_id := uid, quantity := q,
                              type := Direction.OUT, notes := notes }] ∧
    (recordMovement db pid uid Direction.OUT q notes).1.products.find?
        (fun x => x.id == pid) = some (setQuantity p (p.quantity - q)) ∧
    p.quantity < (setQuantity p (p.quantity - q)).quantity := by
  simp only [recordMovement, hfind]
  rw [if_neg (fun hc => absurd hc.2 (by omega))]
  refine ⟨rfl, rfl, ?_, ?_⟩
  · exact find_map_update db.products pid
      (fun x => setQuantity x
        (if Direction.OUT = Direction.IN then p.quantity + q else p.quantity - q))
      (fun x => rfl) p hfind
  · simp only [setQuantity]
    omega

/-- Witness for C10: removing -2 units from a stock of 3. -/
theorem recordMovement_no_positivity_check_witness :
    (recordMovement sampleDB 1 7 Direction.OUT (-2) "").2 = none ∧
    (recordMovement sampleDB 1 7 Direction.OUT (-2) "").1.transactions
      = sampleDB.transactions ++
          [{ product_id := 1, user_id := 7, quantity := -2,
             type := Direction.OUT, notes := "" }] ∧
    (recordMovement sampleDB 1 7 Direction.OUT (-2) "").1.products.find?
        (fun x => x.id == 1)
      = some (setQuantity sampleProduct (sampleProduct.quantity - (-2))) ∧
    sampleProduct.quantity < (setQuantity sampleProduct (sampleProduct.quantity - (-2))).quantity :=
  recordMovement_no_positivity_check sampleDB 1 7 (-2) "" sampleProduct rfl
    (by decide) (by decide)

/-- Explicit form of a successful IN movement. -/
theorem recordMovement_in_eq (db : DB) (pid uid : Nat) (q : Int) (notes : String)
    (p : ProductRow)
    (hfind : db.products.find? (fun x => x.id == pid) = some p) :
    recordMovement db pid uid Direction.IN q notes
      = ({ db with
            transactions := db.transactions ++
              [{ product_id := pid, user_id := uid, quantity := q,
                 type := Direction.IN, notes := notes }],
            products := db.products.map (fun x =>
              if x.id == pid then setQuantity x (p.quantity + q) else x) }, none) := by
  simp only [recordMovement, hfind]
  rw [if_neg (by rintro ⟨h, -⟩; simp at h)]
  simp

/-- Explicit form of a successful OUT movement. -/
theorem recordMovement_out_eq (db : DB) (pid uid : Nat) (q : Int) (notes : String)
    (p : ProductRow)
    (hfind : db.products.find? (fun x => x.id == pid) = some p)
    (hge : ¬ p.quantity < q) :
    recordMovement db pid uid Direction.OUT q notes
      = ({ db with
            transactions := db.transactions ++
              [{ product_id := pid, user_id := uid, quantity := q,
                 type := Direction.OUT, notes := notes }],
            products := db.products.map (fun x =>
              if x.id == pid then setQuantity x (p.quantity - q) else x) }, none) := by
  simp only [recordMovement, hfind]
  rw [if_neg (fun hc => hge hc.2)]
  simp

/-- C6: for positive q, `recordMovement(IN, q)` then `recordMovement(OUT, q)`
on a product starting at quantity 0 (with no prior ledger rows for it)
succeeds twice, returns the product to quantity 0 with status out_of_stock,
and leaves exactly two ledger rows for that product. -/
theorem recordMovement_in_out_roundtrip (db : DB) (pid uid1 uid2 : Nat)
    (q : Int) (n1 n2 : String) (p : ProductRow)
    (hfind : db.products.find? (fun x => x.id == pid) = some p)
    (hp0 : p.quantity = 0)
    (htx : (db.transactions.filter (fun t => t.product_id == pid)).length = 0)
    (hq : 0 < q) :
    (recordMovement db pid uid1 Direction.IN q n1).2 = none ∧
    (recordMovement (recordMovement db pid uid1 Direction.IN q n1).1
        pid uid2 Direction.OUT q n2).2 = none ∧
    (∃ p', (recordMovement (recordMovement db pid uid1 Direction.IN q n1).1
          pid uid2 Direction.OUT q n2).1.products.find? (fun x => x.id == pid)
        = some p' ∧ p'.quantity = 0 ∧ p'.status = Status.out_of_stock) ∧
    ((recordMovement (recordMovement db pid uid1 Direction.IN q n1).1
        pid uid2 Direction.OUT q n2).1.transactions.filter
          (fun t => t.product_id == pid)).length = 2 := by
  have h1 := recordMovement_in_eq db pid uid1 q n1 p hfind
  have hfind1 : (db.products.map (fun x =>
      if x.id == pid then setQuantity x (p.quantity + q) else x)).find?
      (fun x => x.id == pid) = some (setQuantity p (p.quantity + q)) :=
    find_map_update db.products pid
      (fun x => setQuantity x (p.quantity + q)) (fun x => rfl) p hfind
  have hge : ¬ (setQuantity p (p.quantity + q)).quantity < q := by
    simp only [setQuantity]
    omega
  have h2 := recordMovement_out_eq
    { db with
        transactions := db.transactions ++
          [{ product_id := pid, user_id := uid1, quantity := q,
             type := Direction.IN, notes := n1 }],
        products := db.products.map (fun x =>
          if x.id == pid then setQuantity x (p.quantity + q) else x) }
    pid uid2 q n2 (setQuantity p (p.quantity + q)) hfind1 hge
  have hd1 : (recordMovement db pid uid1 Direction.IN q n1).1
      = { db with
          transactions := db.transactions ++
            [{ product_id := pid, user_id := uid1, quantity := q,
               type := Direction.IN, notes := n1 }],
          products := db.products.map (fun x =>
            if x.id == pid then setQuantity x (p.quantity + q) else x) } := by
    rw [h1]
  refine ⟨by rw [h1], ?_, ?_, ?_⟩
  · rw [hd1, h2]
  · refine ⟨setQuantity (setQuantity p (p.quantity + q))
        ((setQuantity p (p.quantity + q)).quantity - q), ?_, ?_, ?_⟩
    · rw [hd1, h2]
      dsimp only
      exact find_map_update _ pid
        (fun x => setQuantity x ((setQuantity p (p.quantity + q)).quantity - q))
        (fun x => rfl) _ hfind1
    · simp only [setQuantity]
      omega
    · have hval : (setQuantity p (p.quantity + q)).quantity - q = 0 := by
        simp only [setQuantity]
        omega
      show classify ((setQuantity p (p.quantity + q)).quantity - q)
        = Status.out_of_stock
      rw [hval]
      rfl
  · rw [hd1, h2]
    dsimp only
    simp [List.filter_append, htx]

/-- Witness for C6: one unit in, one unit out of the zero-stock product. -/
theorem recordMovement_in_out_roundtrip_witness :
    (recordMovement zeroDB 2 7 Direction.IN 1 "").2 = none ∧
    (recordMovement (recordMovement zeroDB 2 7 Direction.IN 1 "").1
        2 8 Direction.OUT 1 "").2 = none ∧
    (∃ p', (recordMovement (recordMovement zeroDB 2 7 Direction.IN 1 "").1
          2 8 Direction.OUT 1 "").1.products.find? (fun x => x.id == 2)
        = some p' ∧ p'.quantity = 0 ∧ p'.status = Status.out_of_stock) ∧
    ((recordMovement (recordMovement zeroDB 2 7 Direction.IN 1 "").1
        2 8 Direction.OUT 1 "").1.transactions.filter
          (fun t => t.product_id == 2)).length = 2 :=
  recordMovement_in_out_roundtrip zeroDB 2 7 8 1 "" "" zeroProduct rfl rfl rfl
    (by decide)

/-- C7: deleting a category referenced by a product keeps the product (same
row count), preserves every other field of the referencing product while
nulling its category reference, and removes the category row. -/
theorem deleteCategory_detaches (db : DB) (cid : Nat) (p : ProductRow)
    (hp : p ∈ db.products) (hcat : p.category_id = some cid) :
    ({ p with category_id := none } ∈ (deleteCategory db cid).products) ∧
    (deleteCategory db cid).products.length = db.products.length ∧
    (∀ c ∈ (deleteCategory db cid).categories, c.id ≠ cid) := by
  refine ⟨?_, by simp [deleteCategory], ?_⟩
  · simp only [deleteCategory, List.mem_map]
    exact ⟨p, hp, by rw [hcat]; simp⟩
  · intro c hc
    simp only [deleteCategory, List.mem_filter] at hc
    simpa using hc.2

/-- Witness for C7: deleting the category `sampleProduct` references. -/
theorem deleteCategory_detaches_witness :
    ({ sampleProduct with category_id := none }
        ∈ (deleteCategory sampleDB 1).products) ∧
    (deleteCategory sampleDB 1).products.length = sampleDB.products.length ∧
    (∀ c ∈ (deleteCategory sampleDB 1).categories, c.id ≠ 1) :=
  deleteCategory_detaches sampleDB 1 sampleProduct (by simp [sampleDB]) rfl

/-- C8: the product-insert policy denies a staff user whose profile has
`is_active = false` and permits the same user when `is_active = true`
(the predicate only consults the caller's active profile row). -/
theorem productsInsert_policy_active (profiles : List Profile) (uid : Nat)
    (pr : Profile) (hrole : pr.role = Role.staff) (hid : pr.id = uid) :
    (pr.is_active = false → (∀ x ∈ profiles, x.id = uid → x = pr) →
      productsCanInsert ⟨profiles, uid⟩ = false) ∧
    (pr.is_active = true → pr ∈ profiles →
      productsCanInsert ⟨profiles, uid⟩ = true) := by
  have hchar : productsCanInsert ⟨profiles, uid⟩ = true ↔
      ∃ x ∈ profiles, x.id = uid ∧ x.is_active = true := by
    simp [productsCanInsert, isActiveUser, List.any_eq_true, Bool.and_eq_true,
      beq_iff_eq]
  constructor
  · intro hact huniq
    rw [← Bool.not_eq_true, hchar]
    rintro ⟨x, hx, hxid, hxact⟩
    rw [huniq x hx hxid] at hxact
    rw [hact] at hxact
    cases hxact
  · intro hact hmem
    rw [hchar]
    exact ⟨pr, hmem, hid, hact⟩

/-- Witness for C8: an inactive staff profile is denied, an active one is
permitted. -/
theorem productsInsert_policy_active_witness :
    productsCanInsert ⟨[staffInactive], 5⟩ = false ∧
    productsCanInsert ⟨[staffActive], 6⟩ = true :=
  ⟨(productsInsert_policy_active [staffInactive] 5 staffInactive rfl rfl).1 rfl
      (by intro x hx _; simpa using hx),
   (productsInsert_policy_active [staffActive] 6 staffActive rfl rfl).2 rfl
      (by simp)⟩

/-- Counterexample to C9 as stated: deleting a product cascades into the
ledger (`stock_transactions.product_id ... ON DELETE CASCADE`, migration
line 104), so on a store holding one ledger row for product 1 the product
delete leaves a transaction list that does not extend the previous one. -/
theorem stockTransactions_not_append_only :
    ¬ ∃ rest, (applyOp txDB (Op.deleteProduct 1)).transactions
        = txDB.transactions ++ rest := by
  rintro ⟨rest, h⟩
  simp [applyOp, deleteProduct, txDB, sampleTx] at h

/-- C9 amended: no operation updates an existing ledger row; the only
deletion is the referential cascade of a product delete, which removes
exactly the deleted product's rows; every other operation only appends to
the ledger; the row-level-security table grants no client update and no
client delete on the ledger, and insertion is permitted exactly for callers
with an active profile. -/
theorem stockTransactions_append_only_amended :
    (∀ (db : DB) (op : Op), (∀ id, op ≠ Op.deleteProduct id) →
        ∃ rest, (applyOp db op).transactions = db.transactions ++ rest) ∧
    (∀ (db : DB) (id : Nat) (t : StockTransaction),
        t ∈ (applyOp db (Op.deleteProduct id)).transactions ↔
          t ∈ db.transactions ∧ t.product_id ≠ id) ∧
    (∀ ctx : PolicyCtx, stockTxCanUpdate ctx = false ∧
        stockTxCanDelete ctx = false) ∧
    (∀ ctx : PolicyCtx, stockTxCanInsert ctx = true ↔
        ∃ pr ∈ ctx.profiles, pr.id = ctx.uid ∧ pr.is_active = true) := by
  refine ⟨?_, ?_, fun ctx => ⟨rfl, rfl⟩, ?_⟩
  · intro db op hne
    cases op with
    | createProduct id pl => exact ⟨[], by simp [applyOp, createProduct]⟩
    | updateProduct id pl => exact ⟨[], by simp [applyOp, updateProduct]⟩
    | deleteProduct id => exact absurd rfl (hne id)
    | createCategory id n d => exact ⟨[], by simp [applyOp, createCategory]⟩
    | updateCategory id n d => exact ⟨[], by simp [applyOp, updateCategory]⟩
    | deleteCategory id => exact ⟨[], by simp [applyOp, deleteCategory]⟩
    | updateProfile id r a => exact ⟨[], by simp [applyOp, updateProfile]⟩
    | recordMove pid uid dir q notes =>
      simp only [applyOp]
      cases hfind : db.products.find? (fun x => x.id == pid) with
      | none =>
        refine ⟨[], ?_⟩
        simp [recordMovement, hfind]
      | some prod =>
        by_cases hc : dir = Direction.OUT ∧ prod.quantity < q
        · refine ⟨[], ?_⟩
          simp only [recordMovement, hfind]
          rw [if_pos hc]
          simp
        · refine ⟨[{ product_id := pid, user_id := uid, quantity := q,
                     type := dir, notes := notes }], ?_⟩
          simp only [recordMovement, hfind]
          rw [if_neg hc]
  · intro db id t
    simp [applyOp, deleteProduct, List.mem_filter, bne_iff_ne]
  · intro ctx
    simp [stockTxCanInsert, isActiveUser, List.any_eq_true, Bool.and_eq_true,
      beq_iff_eq]

/-- Witness for the amended C9: a category insert only appends to the
ledger, and the product delete keeps exactly the rows of other products. -/
theorem stockTransactions_append_only_amended_witness :
    (∃ rest, (applyOp txDB (Op.createCategory 9 "Misc" "")).transactions
        = txDB.transactions ++ rest) ∧
    (sampleTx ∈ (applyOp txDB (Op.deleteProduct 1)).transactions ↔
      sampleTx ∈ txDB.transactions ∧ sampleTx.product_id ≠ 1) :=
  ⟨stockTransactions_append_only_amended.1 txDB (Op.createCategory 9 "Misc" "")
      (fun id h => Op.noConfusion h),
   stockTransactions_append_only_amended.2.1 txDB 1 sampleTx⟩

/-- Every operation preserves the derived-status invariant. -/
theorem statusOk_applyOp (db : DB) (op : Op) (h : statusOk db) :
    statusOk (applyOp db op) := by
  cases op with
  | createProduct id pl =>
    intro x hx
    simp only [applyOp, createProduct, List.mem_append, List.mem_singleton] at hx
    rcases hx with hx | rfl
    · exact h x hx
    · rfl
  | updateProduct id pl =>
    intro x hx
    simp only [applyOp, updateProduct, List.mem_map] at hx
    obtain ⟨y, hy, rfl⟩ := hx
    by_cases hid : (y.id == id) = true
    · rw [if_pos hid]
      rfl
    · rw [if_neg hid]
      exact h y hy
  | deleteProduct id =>
    intro x hx
    simp only [applyOp, deleteProduct, List.mem_filter] at hx
    exact h x hx.1
  | createCategory id n d =>
    intro x hx
    simp only [applyOp, createCategory] at hx
    exact h x hx
  | updateCategory id n d =>
    intro x hx
    simp only [applyOp, updateCategory] at hx
    exact h x hx
  | deleteCategory id =>
    intro x hx
    simp only [applyOp, deleteCategory, List.mem_map] at hx
    obtain ⟨y, hy, rfl⟩ := hx
    by_cases hcid : (y.category_id == some id) = true
    · rw [if_pos hcid]
      exact h y hy
    · rw [if_neg hcid]
      exact h y hy
  | updateProfile id r a =>
    intro x hx
    simp only [applyOp, updateProfile] at hx
    exact h x hx
  | recordMove pid uid dir q notes =>
    intro x hx
    simp only [applyOp] at hx
    cases hfind : db.products.find? (fun y => y.id == pid) with
    | none =>
      simp only [recordMovement, hfind] at hx
      exact h x hx
    | some prod =>
      by_cases hc : dir = Direction.OUT ∧ prod.quantity < q
      · simp only [recordMovement, hfind] at hx
        rw [if_pos hc] at hx
        exact h x hx
      · simp only [recordMovement, hfind] at hx
        rw [if_neg hc] at hx
        simp only [List.mem_map] at hx
        obtain ⟨y, hy, rfl⟩ := hx
        by_cases hid : (y.id == pid) = true
        · rw [if_pos hid]
          rfl
        · rw [if_neg hid]
          exact h y hy

/-- C4: in every state reachable from the empty store, every product row's
stored status equals the classification of its quantity; every quantity
write recomputes it, and no operation carries a status to set
independently. -/
theorem status_invariant_reachable (ops : List Op) : statusOk (runOps ops) := by
  have main : ∀ (l : List Op) (db : DB), statusOk db →
      statusOk (l.foldl applyOp db) := by
    intro l
    induction l with
    | nil => intro db h; exact h
    | cons a l ih =>
      intro db h
      exact ih _ (statusOk_applyOp db a h)
  refine main ops initDB ?_
  intro x hx
  simp [initDB] at hx
